import Mathlib

/-!
Verification development for the `xcomposite` library (composite design
pattern for Python objects).

The embedding models the two core modules:

* `xcomposite/decorators.py` — the `CompositeDecorator` family.  Each
  decorator class carries a class-level result table `_RESULTS` (a dict
  stored on the shared base class) with the class methods `start`, `store`,
  `results`, `clear`, and a `resolve` reduction.  The reductions of the
  concrete policies (`Extend`, `Append`, `Min`, `Max`, `Sum`, `Average`,
  `Range`) are embedded as functions from a list of Python values to a
  Python value or a raised error.

* `xcomposite/core.py` — the `Composition` host: `__getattribute__`
  (attribute resolution and the candidate scan), `_propogate_call` (the
  multi-call dispatcher), `__repr__`, `bind` and `unbind`, plus the
  `Ignore` marker class.

Python values are modelled by the inductive `PyVal` (numbers as rationals,
so that Python's true division in `Average.resolve` is exact), raised
exceptions by `PyErr` through `Except`, and bound attributes by `PyAttr`.
-/

set_option autoImplicit false

namespace XComposite

/-- A Python runtime value, as far as the library manipulates them:
`None`, numbers, strings, lists, the `xcomposite.Ignore` marker class used
as a return value, and opaque references to other objects (hosts,
components, decorator instances). -/
inductive PyVal where
  | none : PyVal
  | num : ℚ → PyVal
  | str : String → PyVal
  | list : List PyVal → PyVal
  | ignore : PyVal
  | obj : Nat → PyVal

/-- A raised Python exception, as far as the library raises them. -/
inductive PyErr where
  /-- `TypeError` (wrong number of positional arguments, or an operand of
  the wrong type inside a reduction). -/
  | typeError : PyErr
  /-- `ValueError` (`min()` / `max()` of an empty sequence). -/
  | valueError : PyErr
  /-- `AttributeError` (missing attribute). -/
  | attributeError : PyErr
  /-- `KeyError` (missing dict key). -/
  | keyError : PyErr
  /-- `Exception('No decorated functions given')` from `_propogate_call`. -/
  | exceptionNoDecorated : PyErr
  /-- `Exception('%s is an invalid identifier')` from
  `CompositeDecorator.store`. -/
  | exceptionInvalidIdentifier : PyErr
deriving DecidableEq

/-- The combination policies used by the claims, one per decorator class of
`xcomposite/decorators.py` that is embedded here.  In the source a policy
is the runtime class of a `CompositeDecorator` instance. -/
inductive Policy where
  | extend : Policy
  | append : Policy
  | min : Policy
  | max : Policy
  | sum : Policy
  | average : Policy
  | range : Policy
deriving DecidableEq

/-- `result == Ignore`: the dispatcher's comparison of a call result with
the `Ignore` class from `xcomposite/core.py`.  Only the marker itself
compares equal to it. -/
def isIgnore : PyVal → Bool
  | .ignore => true
  | _ => false

/-- Reads a list of results as numbers, the implicit expectation of the
numeric reductions (`min`, `max`, `sum` over non-numbers raise
`TypeError` in Python). -/
def asNums : List PyVal → Option (List ℚ)
  | [] => some []
  | .num q :: rest => (asNums rest).map (fun qs => q :: qs)
  | _ => Option.none

/-- One addition step of Python's `sum(items)`: `TypeError` on a
non-numeric element, and an already raised error propagates. -/
def pySumStep (acc : Except PyErr ℚ) (v : PyVal) : Except PyErr ℚ :=
  match acc, v with
  | .ok s, .num q => .ok (s + q)
  | .ok _, _ => .error .typeError
  | .error e, _ => .error e

/-- Python's `sum(items)`: left-to-right addition starting from `0`. -/
def pySum (items : List PyVal) : Except PyErr ℚ :=
  items.foldl pySumStep (.ok 0)

/-- Python's `min(items)` over numbers: `ValueError` on an empty sequence,
otherwise the least element. -/
def pyMin (items : List PyVal) : Except PyErr ℚ :=
  match asNums items with
  | Option.none => .error .typeError
  | some [] => .error .valueError
  | some (q :: qs) => .ok (qs.foldl (fun a b => if b ≤ a then b else a) q)

/-- Python's `max(items)` over numbers: `ValueError` on an empty sequence,
otherwise the greatest element. -/
def pyMax (items : List PyVal) : Except PyErr ℚ :=
  match asNums items with
  | Option.none => .error .typeError
  | some [] => .error .valueError
  | some (q :: qs) => .ok (qs.foldl (fun a b => if a ≤ b then b else a) q)

/-- The loop of `Extend.resolve`: `output.extend(item)` for each item,
each item expected to be a list. -/
def extendLoop : List PyVal → List PyVal → Except PyErr (List PyVal)
  | [], out => .ok out
  | .list l :: rest, out => extendLoop rest (out ++ l)
  | _ :: _, _ => .error .typeError

/-- `Extend.resolve` from `xcomposite/decorators.py`: flattens the result
lists into a single list, in order, without de-duplication. -/
def Extend.resolve (items : List PyVal) : Except PyErr PyVal :=
  (extendLoop items []).map PyVal.list

/-- `Append.resolve` from `xcomposite/decorators.py`: returns the result
list itself. -/
def Append.resolve (items : List PyVal) : Except PyErr PyVal :=
  .ok (.list items)

/-- `Min.resolve` from `xcomposite/decorators.py`: `return min(items)`. -/
def Min.resolve (items : List PyVal) : Except PyErr PyVal :=
  (pyMin items).map PyVal.num

/-- `Max.resolve` from `xcomposite/decorators.py`: `return max(items)`. -/
def Max.resolve (items : List PyVal) : Except PyErr PyVal :=
  (pyMax items).map PyVal.num

/-- `Sum.resolve` from `xcomposite/decorators.py`: `return sum(items)`. -/
def Sum.resolve (items : List PyVal) : Except PyErr PyVal :=
  (pySum items).map PyVal.num

/-- `Average.resolve` from `xcomposite/decorators.py`: `None` on an empty
result list, the sum itself when the sum is `0`, otherwise
`sum(items) / len(items)`. -/
def Average.resolve (items : List PyVal) : Except PyErr PyVal :=
  if items.isEmpty then .ok PyVal.none
  else
    match pySum items with
    | .error e => .error e
    | .ok s => if s = 0 then .ok (.num s) else .ok (.num (s / items.length))

/-- `Range.resolve` from `xcomposite/decorators.py`:
`return max(items) - min(items)`. -/
def Range.resolve (items : List PyVal) : Except PyErr PyVal :=
  match pyMax items with
  | .error e => .error e
  | .ok hi =>
    match pyMin items with
    | .error e => .error e
    | .ok lo => .ok (.num (hi - lo))

/-- Dispatch from a policy (the runtime class of `methods[0]` in
`_propogate_call`) to its `resolve` class method. -/
def resolvePolicy : Policy → List PyVal → Except PyErr PyVal
  | .extend, items => Extend.resolve items
  | .append, items => Append.resolve items
  | .min, items => Min.resolve items
  | .max, items => Max.resolve items
  | .sum, items => Sum.resolve items
  | .average, items => Average.resolve items
  | .range, items => Range.resolve items

/-- A same-named callable collected by the candidate scan of
`Composition.__getattribute__`.  It is either a `CompositeDecorator`
instance found as a class attribute (`policy = some p`, where `p` stands
for the decorator's runtime class) or a plain bound method
(`policy = none`).  `arity` is the number of positional parameters the
underlying plain function declares, `self_` is the object Python itself
prepends when the callable is invoked (the decorator instance for a
decorated method — `CompositeDecorator.__call__` passes `self` — and the
component instance for a plain bound method), and `body` is the underlying
function's behaviour on the full positional argument list it receives. -/
structure Method where
  policy : Option Policy
  arity : Nat
  self_ : PyVal
  body : List PyVal → PyVal

/-- `isinstance(method, CompositeDecorator)`. -/
def Method.decorated (m : Method) : Bool := m.policy.isSome

/-- The positional arguments `_propogate_call` passes to a collected
method: `method(self, *args, **kwargs)` inserts the host instance in front
of the caller's arguments. -/
def dispatchArgs (host : PyVal) (args : List PyVal) : List PyVal :=
  host :: args

/-- The positional arguments the underlying plain function receives when
the dispatcher invokes a collected method: `self_` (the decorator instance
via `CompositeDecorator.__call__`, or the component instance via bound
method binding) in front of the dispatcher's arguments. -/
def receivedArgs (m : Method) (host : PyVal) (args : List PyVal) : List PyVal :=
  m.self_ :: dispatchArgs host args

/-- One method invocation by the dispatcher loop of `_propogate_call`.
Python raises `TypeError` when the number of positional arguments received
differs from the number of declared parameters. -/
def callMethod (m : Method) (host : PyVal) (args : List PyVal) : Except PyErr PyVal :=
  if (receivedArgs m host args).length = m.arity then
    .ok (m.body (receivedArgs m host args))
  else .error .typeError

/-- The class-level result table `CompositeDecorator._RESULTS`: a dict
from identifier strings to result lists.  The dict lives on the shared
base class, so one table serves every policy class. -/
abbrev Table := List (String × List PyVal)

/-- Membership test `identifier in cls._RESULTS`. -/
def tableHasKey (t : Table) (id : String) : Bool :=
  t.any (fun e => e.1 == id)

/-- `CompositeDecorator.start` without the fresh-identifier generation:
`cls._RESULTS[identifier] = list()`.  A Python dict assignment replaces the
value of an existing key in place and appends a new key at the end. -/
def tableInsert (t : Table) (id : String) : Table :=
  if tableHasKey t id then t.map (fun e => if e.1 = id then (id, []) else e)
  else t ++ [(id, [])]

/-- `CompositeDecorator.store`: appends to the list stored under the
identifier, raising when the identifier is unknown. -/
def tableStore (t : Table) (id : String) (v : PyVal) : Except PyErr Table :=
  if tableHasKey t id then
    .ok (t.map (fun e => if e.1 = id then (e.1, e.2 ++ [v]) else e))
  else .error .exceptionInvalidIdentifier

/-- `CompositeDecorator.results`: `cls._RESULTS[identifier]` (a missing
key would be a `KeyError`, hence the `Option`). -/
def tableGet (t : Table) (id : String) : Option (List PyVal) :=
  (t.find? (fun e => e.1 == id)).map (fun e => e.2)

/-- `CompositeDecorator.clear`: `del cls._RESULTS[identifier]` (the
dispatcher only deletes identifiers it has just created, so the key is
present). -/
def tableDel (t : Table) (id : String) : Table :=
  t.filter (fun e => !(e.1 == id))

/-- The method loop of `_propogate_call`: call each method in order with
the host prepended, skip results equal to `Ignore`, store the others under
the call's identifier.  A raised error propagates out of the loop. -/
def runMethods (host : PyVal) (args : List PyVal) (id : String) :
    List Method → Table → Except PyErr Table
  | [], t => .ok t
  | m :: ms, t =>
    match callMethod m host args with
    | .error e => .error e
    | .ok r =>
      if isIgnore r then runMethods host args id ms t
      else
        match tableStore t id r with
        | .error e => .error e
        | .ok t' => runMethods host args id ms t'

/-- The tail of `_propogate_call` after the method loop:
`decorator.resolve(decorator.results(identifier))`, then
`decorator.clear(identifier)`, then return the resolved value.  A raised
error (including one raised by `resolve`) propagates before `clear`
runs. -/
def finishCall (p : Policy) (id : String) (r : Except PyErr Table) :
    Except PyErr (PyVal × Table) :=
  match r with
  | .error e => .error e
  | .ok t =>
    match tableGet t id with
    | Option.none => .error .keyError
    | some results =>
      match resolvePolicy p results with
      | .error e => .error e
      | .ok v => .ok (v, tableDel t id)

/-- `Composition._propogate_call` from `xcomposite/core.py`.  The strict
consistency check on the decorations is commented out in the source; the
code only raises when no collected method at all is decorated.  The first
collected method is then used as the accessor for `start`, `store`,
`results`, `resolve` and `clear`: when it is a plain bound method the
attribute access `decorator.start` raises `AttributeError`, and when it is
decorated its own class's policy is applied to all collected results.  The
fresh identifier produced by `uuid.uuid4()` is passed in as `freshId`. -/
def propogateCall (methods : List Method) (freshId : String) (host : PyVal)
    (args : List PyVal) (table : Table) : Except PyErr (PyVal × Table) :=
  match methods with
  | [] => .error .exceptionNoDecorated
  | m₀ :: rest =>
    if ((m₀ :: rest).filter Method.decorated).isEmpty then
      .error .exceptionNoDecorated
    else
      match m₀.policy with
      | Option.none => .error .attributeError
      | some p =>
        finishCall p freshId
          (runMethods host args freshId (m₀ :: rest) (tableInsert table freshId))

/-- What `object.__getattribute__(candidate, item)` can yield for a
candidate object: a callable (`callable(matched_item)` true — a decorator
instance or a bound method) or a non-callable value. -/
inductive PyAttr where
  | meth : Method → PyAttr
  | val : PyVal → PyAttr

/-- An object participating in attribute resolution: its runtime class
name (for `__repr__`) and its attribute table. -/
structure PyObject where
  clsName : String
  attrs : String → Option PyAttr

/-- The outcome of `Composition.__getattribute__`: a non-callable value, a
directly returned non-decorator callable, the deferred propagation partial
over the collected methods, or a raised `AttributeError`. -/
inductive GetattrResult where
  | value : PyVal → GetattrResult
  | boundMethod : Method → GetattrResult
  | propagator : List Method → GetattrResult
  | attrError : GetattrResult

/-- The candidate scan of `Composition.__getattribute__`: walk the
candidates in order, skip a candidate on `AttributeError`, return a
non-callable match immediately, collect callables; with no collected
callable at the end raise `AttributeError('Could not find ...')`,
otherwise return the propagation partial. -/
def scanLoop (name : String) : List PyObject → List Method → GetattrResult
  | [], acc => if acc.isEmpty then .attrError else .propagator acc
  | o :: os, acc =>
    match o.attrs name with
    | Option.none => scanLoop name os acc
    | some (.val v) => .value v
    | some (.meth m) => scanLoop name os (acc ++ [m])

/-- A `Composition` host (`xcomposite/core.py`), constructed with the
default `target=None`, so `self._target` is the host itself: its own
attribute table, the runtime reference to it (what `_propogate_call`
passes as the extra first argument), and `self._components` in binding
order. -/
structure Composition where
  self_ : PyObject
  selfRef : PyVal
  components : List PyObject

/-- `Composition.__getattribute__`: first try the host directly and return
the match as-is unless it is a `CompositeDecorator` instance; otherwise
scan `[self._target] + self._components` (here `target` is the default,
the host itself). -/
def getattribute (c : Composition) (name : String) : GetattrResult :=
  match c.self_.attrs name with
  | some (.val v) => .value v
  | some (.meth m) =>
    if m.decorated then scanLoop name (c.self_ :: c.components) []
    else .boundMethod m
  | Option.none => scanLoop name (c.self_ :: c.components) []

/-- A composite attribute access followed by a call with the given caller
arguments, end to end: resolve the attribute, then either invoke the
directly returned bound method (Python binds the owner as first argument),
invoke the propagation partial, or raise (`TypeError` for calling a
non-callable). -/
def invokeComposite (c : Composition) (name freshId : String)
    (args : List PyVal) (table : Table) : Except PyErr (PyVal × Table) :=
  match getattribute c name with
  | .value _ => .error .typeError
  | .boundMethod m =>
    if (m.self_ :: args).length = m.arity then .ok (m.body (m.self_ :: args), table)
    else .error .typeError
  | .propagator ms => propogateCall ms freshId c.selfRef args table
  | .attrError => .error .attributeError

/-- `Composition.__repr__`: the class name alone without components,
otherwise `'[%s (%s)]'` with the component class names joined by `'; '`. -/
def Composition.repr (c : Composition) : String :=
  if c.components.isEmpty then c.self_.clsName
  else
    "[" ++ c.self_.clsName ++ " (" ++
      String.intercalate "; " (c.components.map PyObject.clsName) ++ ")]"

/-- First-occurrence de-duplication, keeping the original order. -/
def dedupKeepFirst (l : List String) : List String :=
  l.foldl (fun acc s => if s ∈ acc then acc else acc ++ [s]) []

/-- Modelled from the spec: the string representation described by the
specification, which shows the host type name followed by the distinct
component type names in binding order, parenthesized.  Written for
comparison with `Composition.repr`, which is translated from the source
and does not de-duplicate. -/
def reprSpecDistinct (c : Composition) : String :=
  if c.components.isEmpty then c.self_.clsName
  else
    "[" ++ c.self_.clsName ++ " (" ++
      String.intercalate "; "
        (dedupKeepFirst (c.components.map PyObject.clsName)) ++ ")]"

/-- A miniature class universe for the bind/unbind bookkeeping, mirroring
the hierarchy of the repository's test classes: `DecoratorTesterA`
subclasses `DecoratorBase`; `DecoratorTesterB` is unrelated to both. -/
inductive CType where
  | decoratorBase : CType
  | decoratorTesterA : CType
  | decoratorTesterB : CType
deriving DecidableEq

/-- `issubclass(a, b)` over the miniature universe. -/
def issubclassOf : CType → CType → Bool
  | .decoratorTesterA, .decoratorBase => true
  | a, b => a == b

/-- A bound component as the component list sees it: an object identity
and a runtime class.  Python's default `==` on such objects is identity,
so two references are equal exactly when the whole record is equal (equal
identities imply one object and hence one class). -/
structure CompRef where
  oid : Nat
  ty : CType
deriving DecidableEq

/-- `isinstance(component, component_type)`. -/
def isinstanceOf (c : CompRef) (t : CType) : Bool :=
  issubclassOf c.ty t

/-- `Composition.bind`: `self._components.append(component)`. -/
def bindComponent (comps : List CompRef) (c : CompRef) : List CompRef :=
  comps ++ [c]

/-- The loop of `Composition.unbind`: iterate over the snapshot
`self._components[:]` while removing matches from the live list with
`list.remove`, which deletes the first occurrence equal to its
argument. -/
def unbindLoop (t : CType) : List CompRef → List CompRef → List CompRef
  | [], state => state
  | c :: rest, state =>
    unbindLoop t rest (if isinstanceOf c t then state.erase c else state)

/-- `Composition.unbind` from `xcomposite/core.py`. -/
def unbind (comps : List CompRef) (t : CType) : List CompRef :=
  unbindLoop t comps comps

/-! Concrete fixtures used by the claim theorems and witnesses. -/

/-- The host's decorated `items` method of the documented `Extend`
scenario (`xcomposite/__init__.py` and the `Ignore` docstring): declared
with one parameter (`def items(self)`), contributing nothing
(`return xcomposite.Ignore`). -/
def wrapItems : Method :=
  { policy := some .extend, arity := 1, self_ := .obj 100,
    body := fun _ => .ignore }

/-- Component `A`'s plain `items` method: `def items(self): return ['a', 'b']`. -/
def aItems : Method :=
  { policy := Option.none, arity := 1, self_ := .obj 101,
    body := fun _ => .list [.str "a", .str "b"] }

/-- Component `B`'s plain `items` method: `def items(self): return ['x', 'y']`. -/
def bItems : Method :=
  { policy := Option.none, arity := 1, self_ := .obj 102,
    body := fun _ => .list [.str "x", .str "y"] }

/-- The host object of the `Extend` scenario. -/
def wrapperObj : PyObject :=
  ⟨"Wrapper", fun n => if n = "items" then some (.meth wrapItems) else Option.none⟩

/-- Component `A` of the `Extend` scenario. -/
def componentA : PyObject :=
  ⟨"A", fun n => if n = "items" then some (.meth aItems) else Option.none⟩

/-- Component `B` of the `Extend` scenario. -/
def componentB : PyObject :=
  ⟨"B", fun n => if n = "items" then some (.meth bItems) else Option.none⟩

/-- The `Extend` scenario of claim C2: host declaring `items` with
`Extend`, with `A` bound first and `B` bound second. -/
def extendScenario : Composition :=
  ⟨wrapperObj, .obj 99, [componentA, componentB]⟩

/-- The decorated half of the mixed pair of claim C1, mirroring
`PartiallyDecoratedTesterA.test` (`@take_max`, returns `1`), with the
parameter list widened to absorb the dispatcher's extra arguments. -/
def mixedDecorated : Method :=
  { policy := some .max, arity := 2, self_ := .obj 110,
    body := fun _ => .num 1 }

/-- The undecorated half of the mixed pair of claim C1, mirroring
`PartiallyDecoratedTesterB.test` (plain, returns `2`), with the parameter
list widened to absorb the dispatcher's extra arguments. -/
def mixedPlain : Method :=
  { policy := Option.none, arity := 2, self_ := .obj 111,
    body := fun _ => .num 2 }

/-! Supporting lemmas. -/

/-- Folding `pySumStep` over a list of numbers adds their sum to the
accumulator. -/
theorem pySumStep_foldl_map (ns : List ℚ) :
    ∀ s : ℚ, (ns.map PyVal.num).foldl pySumStep (.ok s) = .ok (s + ns.sum) := by
  induction ns with
  | nil => intro s; simp
  | cons q rest ih =>
    intro s
    simp only [List.map_cons, List.foldl_cons, pySumStep, List.sum_cons]
    rw [ih, add_assoc]

/-- Python's `sum` over a list of numbers is the list's sum. -/
theorem pySum_map_num (ns : List ℚ) : pySum (ns.map PyVal.num) = .ok ns.sum := by
  rw [pySum, pySumStep_foldl_map, zero_add]

/-- Evaluation of `Average.resolve` on a non-empty list of numbers. -/
theorem average_resolve_map_eq (ns : List ℚ) (h : ns ≠ []) :
    Average.resolve (ns.map PyVal.num) =
      if ns.sum = 0 then Except.ok (PyVal.num 0)
      else Except.ok (PyVal.num (ns.sum / ns.length)) := by
  have hne : (ns.map PyVal.num).isEmpty = false := by
    cases ns with
    | nil => exact absurd rfl h
    | cons a l => rfl
  rw [Average.resolve, hne, pySum_map_num]
  simp only [Bool.false_eq_true, if_false, List.length_map]
  split <;> simp_all

/-! Claim theorems. -/

/-- C1 (code bug evidence): a composite call over a mixed method list —
the decorated `PartiallyDecoratedTesterA.test` (`Max` policy, returns `1`)
followed by the undecorated `PartiallyDecoratedTesterB.test` (returns `2`)
— does not raise any configuration error: `_propogate_call` only rejects
lists with no decorated method at all (the strict check is commented out
in the source), and silently applies the first method's `Max` policy,
returning `2`. -/
theorem c1_mixed_decoration_not_rejected :
    propogateCall [mixedDecorated, mixedPlain] "c1id" (.obj 1) [] [] =
        .ok (.num 2, [])
      ∧ mixedDecorated.decorated = true ∧ mixedPlain.decorated = false :=
  ⟨rfl, rfl, rfl⟩

/-- C2 (code bug evidence): in the documented `Extend` scenario — a host
declaring `items` with `Extend`, component `A` returning `['a', 'b']`
bound first and component `B` returning `['x', 'y']` bound second, each
method declared as `def items(self)` — calling `host.items()` raises
`TypeError` (the dispatcher passes two positional arguments to the
one-parameter function), instead of returning the flattened list; the
flattened list `['a', 'b', 'x', 'y']` is what `Extend.resolve` itself
produces from the two component results. -/
theorem c2_extend_scenario_raises_type_error :
    invokeComposite extendScenario "items" "call0" [] [] = .error .typeError
      ∧ Extend.resolve [.list [.str "a", .str "b"], .list [.str "x", .str "y"]] =
          .ok (.list [.str "a", .str "b", .str "x", .str "y"]) :=
  ⟨rfl, rfl⟩

/-- C4: `Average.resolve` returns the `None` sentinel on an empty result
list, `0` when the results sum to `0`, and otherwise the sum divided by
the count; in particular results `[0, 10]` reduce to `5` and `[0, 0]`
reduce to `0`. -/
theorem c4_average_resolve_spec (ns : List ℚ) :
    Average.resolve [] = .ok PyVal.none
      ∧ (ns ≠ [] → ns.sum = 0 →
          Average.resolve (ns.map PyVal.num) = .ok (.num 0))
      ∧ (ns ≠ [] → ns.sum ≠ 0 →
          Average.resolve (ns.map PyVal.num) = .ok (.num (ns.sum / ns.length)))
      ∧ Average.resolve [.num 0, .num 10] = .ok (.num 5)
      ∧ Average.resolve [.num 0, .num 0] = .ok (.num 0) := by
  refine ⟨rfl, ?_, ?_, ?_, ?_⟩
  · intro h hsum
    rw [average_resolve_map_eq ns h, if_pos hsum]
  · intro h hsum
    rw [average_resolve_map_eq ns h, if_neg hsum]
  · simp [Average.resolve, pySum, pySumStep]
    norm_num
  · simp [Average.resolve, pySum, pySumStep]

/-- C4 witness: the hypotheses of the quantified clauses hold at the
concrete input `[0, 0]`, and the theorem yields the concrete reduction. -/
theorem c4_average_resolve_spec_witness :
    (([(0 : ℚ), 0] : List ℚ) ≠ [] ∧ ([(0 : ℚ), 0] : List ℚ).sum = 0)
      ∧ Average.resolve ([(0 : ℚ), 0].map PyVal.num) = .ok (.num 0) :=
  ⟨⟨by simp, by simp⟩, (c4_average_resolve_spec [0, 0]).2.1 (by simp) (by simp)⟩

/-- C8: the `Min`, `Max` and `Range` reductions raise `ValueError` on an
empty result list (Python's `min()` / `max()` of an empty sequence); none
of them returns zero or a default. -/
theorem c8_min_max_range_empty_value_error :
    Min.resolve [] = .error .valueError
      ∧ Max.resolve [] = .error .valueError
      ∧ Range.resolve [] = .error .valueError :=
  ⟨rfl, rfl, rfl⟩

/-- The candidate scan returns a non-callable match immediately: whatever
the accumulator and whatever comes later, once every earlier candidate
either skips or contributes a callable, a candidate resolving to a
non-callable value ends the scan with that value. -/
theorem scanLoop_reaches_value (name : String) (post : List PyObject)
    (o : PyObject) (v : PyVal) (ho : o.attrs name = some (PyAttr.val v)) :
    ∀ (pre : List PyObject) (acc : List Method),
      (∀ p ∈ pre, p.attrs name = Option.none ∨
        ∃ m, p.attrs name = some (PyAttr.meth m)) →
      scanLoop name (pre ++ o :: post) acc = .value v := by
  intro pre
  induction pre with
  | nil =>
    intro acc _
    simp only [List.nil_append, scanLoop, ho]
  | cons p ps ih =>
    intro acc hpre
    rcases hpre p (by simp) with hnone | ⟨m, hm⟩
    · simp only [List.cons_append, scanLoop, hnone]
      exact ih acc (fun q hq => hpre q (by simp [hq]))
    · simp only [List.cons_append, scanLoop, hm]
      exact ih (acc ++ [m]) (fun q hq => hpre q (by simp [hq]))

/-- C3: when the ordered candidate scan of `__getattribute__` (host first,
then the bound components in binding order) reaches a candidate on which
the attribute resolves to a non-callable value, that value is returned
immediately, independently of every later candidate and without any
combination policy. -/
theorem c3_noncallable_first_match_wins (c : Composition) (name : String)
    (pre post : List PyObject) (o : PyObject) (v : PyVal)
    (hsplit : c.self_ :: c.components = pre ++ o :: post)
    (hhead : ∀ m : Method, pre ≠ [] →
      c.self_.attrs name = some (PyAttr.meth m) → m.decorated = true)
    (hpre : ∀ p ∈ pre, p.attrs name = Option.none ∨
      ∃ m, p.attrs name = some (PyAttr.meth m))
    (ho : o.attrs name = some (PyAttr.val v)) :
    getattribute c name = .value v := by
  cases pre with
  | nil =>
    have hself : c.self_ = o := by
      injection hsplit
    rw [getattribute, hself, ho]
  | cons q qs =>
    have hself : c.self_ = q := by injection hsplit
    have hscan : scanLoop name (c.self_ :: c.components) [] = .value v := by
      rw [hsplit]
      exact scanLoop_reaches_value name post o v ho (q :: qs) [] hpre
    rw [hself] at hscan
    rcases hpre q (by simp) with hnone | ⟨m, hm⟩
    · rw [getattribute, hself, hnone]
      exact hscan
    · have hdec : m.decorated = true :=
        hhead m (by simp) (by rw [hself]; exact hm)
      rw [getattribute, hself, hm]
      simp only [hdec, if_true]
      exact hscan

/-- The host object of the C3 witness: its `size` attribute is a
decorated method, so the direct lookup falls through to the scan. -/
def c3Host : PyObject :=
  ⟨"Host", fun n =>
    if n = "size" then
      some (.meth { policy := some .sum, arity := 1, self_ := .obj 1,
                    body := fun _ => .num 1 })
    else Option.none⟩

/-- The first bound component of the C3 witness: `size` is a non-callable
value `42`. -/
def c3CompWithValue : PyObject :=
  ⟨"WithValue", fun n =>
    if n = "size" then some (.val (.num 42)) else Option.none⟩

/-- A later component of the C3 witness whose `size` value would differ,
showing it is never consulted. -/
def c3CompLater : PyObject :=
  ⟨"Later", fun n =>
    if n = "size" then some (.val (.num 7)) else Option.none⟩

/-- The composed host of the C3 witness. -/
def c3Composition : Composition :=
  ⟨c3Host, .obj 0, [c3CompWithValue, c3CompLater]⟩

/-- C3 witness: on the concrete composition the scan reaches the first
component's non-callable `size` value `42` and returns it, ignoring the
later component's value `7`. -/
theorem c3_noncallable_first_match_wins_witness :
    c3Composition.self_ :: c3Composition.components =
        [c3Host] ++ c3CompWithValue :: [c3CompLater]
      ∧ getattribute c3Composition "size" = .value (.num 42) := by
  refine ⟨rfl, ?_⟩
  refine c3_noncallable_first_match_wins c3Composition "size" [c3Host]
    [c3CompLater] c3CompWithValue (.num 42) rfl ?_ ?_ rfl
  · intro m _ hm
    simp only [c3Composition, c3Host, reduceIte, Option.some.injEq] at hm
    cases hm
    rfl
  · intro p hp
    simp only [List.mem_singleton] at hp
    subst hp
    exact Or.inr ⟨_, rfl⟩

/-- A bound component of type `MyObject` (its attributes are irrelevant to
`__repr__`). -/
def myObjectComp : PyObject := ⟨"MyObject", fun _ => Option.none⟩

/-- A host of type `Definition` with no bound components. -/
def definitionNoComp : Composition :=
  ⟨⟨"Definition", fun _ => Option.none⟩, .obj 0, []⟩

/-- A host of type `Definition` with one bound `MyObject` component. -/
def definitionOneComp : Composition :=
  ⟨⟨"Definition", fun _ => Option.none⟩, .obj 0, [myObjectComp]⟩

/-- A host of type `Definition` with two bound components of the same type
`MyObject`. -/
def definitionTwoComp : Composition :=
  ⟨⟨"Definition", fun _ => Option.none⟩, .obj 0, [myObjectComp, myObjectComp]⟩

/-- C5 counterexample: with two bound components of the same type the
source's `__repr__` repeats the type name — it joins all component class
names, while the claim's "distinct component type names" would list the
name once. -/
theorem c5_repr_duplicate_not_distinct :
    Composition.repr definitionTwoComp = "[Definition (MyObject; MyObject)]"
      ∧ reprSpecDistinct definitionTwoComp = "[Definition (MyObject)]"
      ∧ Composition.repr definitionTwoComp ≠ reprSpecDistinct definitionTwoComp := by
  exact ⟨rfl, rfl, by decide⟩

/-- C5 as amended: the representation is the host type name alone when no
components are bound, and otherwise the host type name followed by the
class names of ALL bound components in binding order — duplicates
repeated, not de-duplicated — joined by `'; '` and parenthesized;
concretely `"[Definition (MyObject)]"` with one bound `MyObject` component
and `"Definition"` with none. -/
theorem c5_repr_amended (c : Composition) :
    (c.components = [] → Composition.repr c = c.self_.clsName)
      ∧ (c.components ≠ [] →
          Composition.repr c =
            "[" ++ c.self_.clsName ++ " (" ++
              String.intercalate "; " (c.components.map PyObject.clsName) ++ ")]")
      ∧ Composition.repr definitionOneComp = "[Definition (MyObject)]"
      ∧ Composition.repr definitionNoComp = "Definition" := by
  refine ⟨?_, ?_, rfl, rfl⟩
  · intro h
    simp [Composition.repr, h]
  · intro h
    have hne : c.components.isEmpty = false := by
      cases hc : c.components with
      | nil => exact absurd hc h
      | cons a l => rfl
    simp [Composition.repr, hne]

/-- C5 witness: the non-empty clause of the amended claim at the concrete
one-component host. -/
theorem c5_repr_amended_witness :
    definitionOneComp.components ≠ []
      ∧ Composition.repr definitionOneComp =
          "[" ++ definitionOneComp.self_.clsName ++ " (" ++
            String.intercalate "; "
              (definitionOneComp.components.map PyObject.clsName) ++ ")]" :=
  ⟨by simp [definitionOneComp],
    (c5_repr_amended definitionOneComp).2.1 (by simp [definitionOneComp])⟩

/-- Erasing elements that are all different from the head leaves the head
in place. -/
theorem foldl_erase_cons_of_ne (a : CompRef) :
    ∀ (cs st : List CompRef), (∀ c ∈ cs, c ≠ a) →
      cs.foldl (fun s c => s.erase c) (a :: st) =
        a :: cs.foldl (fun s c => s.erase c) st := by
  intro cs
  induction cs with
  | nil => intro st _; rfl
  | cons c cs ih =>
    intro st h
    have hca : ¬(a == c) = true := by
      simp only [beq_iff_eq]
      exact fun hac => (h c (by simp)) (hac ▸ rfl)
    simp only [List.foldl_cons]
    rw [List.erase_cons_tail hca]
    exact ih (st.erase c) (fun x hx => h x (by simp [hx]))

/-- Folding `erase` over the matching elements of a list, starting from
the list itself, leaves exactly the non-matching elements in order. -/
theorem foldl_erase_filter (t : CType) :
    ∀ l : List CompRef,
      (l.filter (fun c => isinstanceOf c t)).foldl (fun s c => s.erase c) l =
        l.filter (fun c => !(isinstanceOf c t)) := by
  intro l
  induction l with
  | nil => rfl
  | cons a rest ih =>
    by_cases ha : isinstanceOf a t
    · rw [List.filter_cons_of_pos (p := fun c => isinstanceOf c t) ha,
        List.filter_cons_of_neg (p := fun c => !(isinstanceOf c t)) (by simp [ha])]
      simp only [List.foldl_cons, List.erase_cons_head]
      exact ih
    · rw [List.filter_cons_of_neg (p := fun c => isinstanceOf c t) ha,
        List.filter_cons_of_pos (p := fun c => !(isinstanceOf c t)) (by simp [ha])]
      rw [foldl_erase_cons_of_ne a (rest.filter (fun c => isinstanceOf c t)) rest
        (fun c hc => by
          have hct : isinstanceOf c t = true := (List.mem_filter.mp hc).2
          intro hca
          subst hca
          exact ha hct)]
      rw [ih]

/-- The unbind loop equals folding `erase` over the matching snapshot
elements. -/
theorem unbindLoop_eq_foldl (t : CType) :
    ∀ (s st : List CompRef),
      unbindLoop t s st =
        (s.filter (fun c => isinstanceOf c t)).foldl (fun acc c => acc.erase c) st := by
  intro s
  induction s with
  | nil => intro st; rfl
  | cons c rest ih =>
    intro st
    by_cases hc : isinstanceOf c t
    · simp only [unbindLoop]
      rw [if_pos hc, List.filter_cons_of_pos (p := fun c => isinstanceOf c t) hc,
        List.foldl_cons, ih]
    · simp only [unbindLoop]
      rw [if_neg hc, List.filter_cons_of_neg (p := fun c => isinstanceOf c t) hc, ih]

/-- C6: `unbind` removes from the component list exactly the bound
components whose runtime type is the given type or a subtype of it — all
matching instances, the non-matching components kept in their original
relative order, with no error when nothing matches. -/
theorem c6_unbind_removes_matching_types (comps : List CompRef) (t : CType) :
    unbind comps t = comps.filter (fun c => !(isinstanceOf c t)) := by
  rw [unbind, unbindLoop_eq_foldl, foldl_erase_filter]

/-- A method whose call returns the `Ignore` marker leaves the dispatcher
loop's behaviour unchanged wherever it sits in the method list. -/
theorem runMethods_ignore_elim (host : PyVal) (args : List PyVal) (id : String)
    (mI : Method) (hI : callMethod mI host args = .ok PyVal.ignore) :
    ∀ (pre rest : List Method) (t : Table),
      runMethods host args id (pre ++ mI :: rest) t =
        runMethods host args id (pre ++ rest) t := by
  intro pre
  induction pre with
  | nil =>
    intro rest t
    simp only [List.nil_append, runMethods, hI, isIgnore, if_true]
  | cons m pre ih =>
    intro rest t
    simp only [List.cons_append, runMethods]
    cases hcm : callMethod m host args with
    | error e => rfl
    | ok r =>
      by_cases hr : isIgnore r
      · simp only [hr, if_true]
        exact ih rest t
      · simp only [hr, Bool.false_eq_true, if_false]
        cases hts : tableStore t id r with
        | error e => rfl
        | ok t' => exact ih rest t'

/-- Unfolding of `_propogate_call` when the first collected method is
decorated: the decoration emptiness check passes and the first method's
policy drives the call. -/
theorem propogateCall_decorated_head (m₀ : Method) (ms : List Method)
    (p : Policy) (hp : m₀.policy = some p) (freshId : String) (host : PyVal)
    (args : List PyVal) (table : Table) :
    propogateCall (m₀ :: ms) freshId host args table =
      finishCall p freshId
        (runMethods host args freshId (m₀ :: ms) (tableInsert table freshId)) := by
  have hdec : Method.decorated m₀ = true := by simp [Method.decorated, hp]
  simp only [propogateCall, List.filter_cons, hdec, if_true, List.isEmpty_cons,
    Bool.false_eq_true, if_false, hp]

/-- C7: a collected method whose call returns the `Ignore` marker
contributes nothing: the propagation call over a method list containing it
(after a decorated first method) returns exactly what the call over the
list without it returns, whatever the combination policy. -/
theorem c7_ignore_contributes_nothing (m₀ mI : Method) (ms1 ms2 : List Method)
    (freshId : String) (host : PyVal) (args : List PyVal) (table : Table)
    (hdec : m₀.decorated = true)
    (hI : callMethod mI host args = .ok PyVal.ignore) :
    propogateCall (m₀ :: (ms1 ++ mI :: ms2)) freshId host args table =
      propogateCall (m₀ :: (ms1 ++ ms2)) freshId host args table := by
  cases hpol : m₀.policy with
  | none => simp [Method.decorated, hpol] at hdec
  | some p =>
    rw [propogateCall_decorated_head m₀ (ms1 ++ mI :: ms2) p hpol,
      propogateCall_decorated_head m₀ (ms1 ++ ms2) p hpol]
    exact congrArg (finishCall p freshId)
      (runMethods_ignore_elim host args freshId mI hI (m₀ :: ms1) ms2
        (tableInsert table freshId))

/-- A component method of the C7 witness that returns the `Ignore`
marker (declared with two parameters, so the dispatcher's extra arguments
are absorbed). -/
def ignoringMethod : Method :=
  { policy := Option.none, arity := 2, self_ := .obj 120,
    body := fun _ => .ignore }

/-- The decorated head method of the C7 witness: `Extend` policy,
returning `['a']`. -/
def extendHeadMethod : Method :=
  { policy := some .extend, arity := 2, self_ := .obj 121,
    body := fun _ => .list [.str "a"] }

/-- C7 witness: at the concrete input the `Ignore`-returning method is
dropped, so the call with it equals the call without it (both reduce to
`['a']`). -/
theorem c7_ignore_contributes_nothing_witness :
    (extendHeadMethod.decorated = true
        ∧ callMethod ignoringMethod (.obj 9) [] = .ok PyVal.ignore)
      ∧ propogateCall [extendHeadMethod, ignoringMethod] "c7id" (.obj 9) [] [] =
          propogateCall [extendHeadMethod] "c7id" (.obj 9) [] [] :=
  ⟨⟨rfl, rfl⟩,
    c7_ignore_contributes_nothing extendHeadMethod ignoringMethod [] []
      "c7id" (.obj 9) [] [] rfl rfl⟩

/-- A key absent from the table differs from every stored key. -/
theorem tableHasKey_false_forall {t : Table} {id : String}
    (h : tableHasKey t id = false) : ∀ e ∈ t, (e.1 == id) = false := by
  intro e he
  by_contra hc
  have hc' : (e.1 == id) = true := by
    cases hb : (e.1 == id) with
    | true => rfl
    | false => exact absurd hb hc
  have ht : tableHasKey t id = true := by
    rw [tableHasKey]
    exact List.any_eq_true.mpr ⟨e, he, hc'⟩
  rw [h] at ht
  cases ht

/-- Inserting a fresh key appends a new empty entry. -/
theorem tableInsert_fresh {t : Table} {id : String}
    (h : tableHasKey t id = false) : tableInsert t id = t ++ [(id, [])] := by
  rw [tableInsert, if_neg (by simp [h])]

/-- Storing under a key that is fresh for the prefix only touches the
appended entry. -/
theorem tableStore_append {t : Table} {id : String}
    (h : tableHasKey t id = false) (acc : List PyVal) (v : PyVal) :
    tableStore (t ++ [(id, acc)]) id v = .ok (t ++ [(id, acc ++ [v])]) := by
  have hk : tableHasKey (t ++ [(id, acc)]) id = true := by
    simp [tableHasKey]
  rw [tableStore, if_pos (by simp [hk])]
  rw [List.map_append]
  have hmap : t.map (fun e => if e.1 = id then (e.1, e.2 ++ [v]) else e) = t := by
    conv_rhs => rw [← List.map_id t]
    refine List.map_congr_left ?_
    intro e he
    have : (e.1 == id) = false := tableHasKey_false_forall h e he
    rw [if_neg (by simpa using this)]
    rfl
  rw [hmap]
  simp

/-- Reading a key that is fresh for the prefix finds the appended
entry. -/
theorem tableGet_append {t : Table} {id : String}
    (h : tableHasKey t id = false) (acc : List PyVal) :
    tableGet (t ++ [(id, acc)]) id = some acc := by
  rw [tableGet, List.find?_append]
  have hnone : t.find? (fun e => e.1 == id) = Option.none := by
    rw [List.find?_eq_none]
    intro e he
    simp [tableHasKey_false_forall h e he]
  rw [hnone]
  simp [List.find?]

/-- Deleting a key that is fresh for the prefix removes exactly the
appended entry. -/
theorem tableDel_append {t : Table} {id : String}
    (h : tableHasKey t id = false) (acc : List PyVal) :
    tableDel (t ++ [(id, acc)]) id = t := by
  rw [tableDel, List.filter_append]
  have hfil : t.filter (fun e => !(e.1 == id)) = t := by
    rw [List.filter_eq_self]
    intro e he
    simp [tableHasKey_false_forall h e he]
  rw [hfil]
  simp

/-- Through the dispatcher loop the table keeps the shape "previous table
plus one entry under the call's identifier": only that entry is ever
extended. -/
theorem runMethods_keeps_shape (host : PyVal) (args : List PyVal) (id : String)
    {t : Table} (h : tableHasKey t id = false) :
    ∀ (ms : List Method) (acc : List PyVal) (t₂ : Table),
      runMethods host args id ms (t ++ [(id, acc)]) = .ok t₂ →
      ∃ acc₂, t₂ = t ++ [(id, acc₂)] := by
  intro ms
  induction ms with
  | nil =>
    intro acc t₂ hrun
    simp only [runMethods, Except.ok.injEq] at hrun
    exact ⟨acc, hrun.symm⟩
  | cons m ms ih =>
    intro acc t₂ hrun
    simp only [runMethods] at hrun
    cases hcm : callMethod m host args with
    | error e => rw [hcm] at hrun; simp at hrun
    | ok r =>
      rw [hcm] at hrun
      by_cases hr : isIgnore r
      · simp only [hr, if_true] at hrun
        exact ih acc t₂ hrun
      · simp only [hr, Bool.false_eq_true, if_false,
          tableStore_append h acc r] at hrun
        exact ih (acc ++ [r]) t₂ hrun

/-- C9: a propagation call that completes without an exception leaves the
shared result table exactly as it found it — the fresh identifier entry
created by `start` is extended only under that identifier and deleted by
`clear` before returning. -/
theorem c9_table_restored_on_success (methods : List Method) (freshId : String)
    (host : PyVal) (args : List PyVal) (table : Table) (v : PyVal) (out : Table)
    (hfresh : tableHasKey table freshId = false)
    (hok : propogateCall methods freshId host args table = .ok (v, out)) :
    out = table := by
  cases methods with
  | nil => simp [propogateCall] at hok
  | cons m₀ rest =>
    simp only [propogateCall] at hok
    by_cases hemp : ((m₀ :: rest).filter Method.decorated).isEmpty
    · rw [if_pos hemp] at hok
      simp at hok
    · rw [if_neg hemp] at hok
      cases hpol : m₀.policy with
      | none => rw [hpol] at hok; simp at hok
      | some p =>
        rw [hpol] at hok
        rw [tableInsert_fresh hfresh] at hok
        cases hrun : runMethods host args freshId (m₀ :: rest)
            (table ++ [(freshId, [])]) with
        | error e =>
          rw [hrun] at hok
          simp [finishCall] at hok
        | ok t₂ =>
          rw [hrun] at hok
          obtain ⟨acc₂, rfl⟩ :=
            runMethods_keeps_shape host args freshId hfresh (m₀ :: rest) [] t₂ hrun
          simp only [finishCall, tableGet_append hfresh acc₂] at hok
          cases hres : resolvePolicy p acc₂ with
          | error e =>
            simp only [hres] at hok
            exact Except.noConfusion hok
          | ok v' =>
            simp only [hres, tableDel_append hfresh acc₂, Except.ok.injEq,
              Prod.mk.injEq] at hok
            exact hok.2.symm

/-- C9 witness: a concrete successful call over the empty table with a
fresh identifier ends with the table unchanged. -/
theorem c9_table_restored_on_success_witness :
    (tableHasKey [] "c9id" = false
        ∧ propogateCall [extendHeadMethod] "c9id" (.obj 9) [] [] =
            .ok (.list [.str "a"], []))
      ∧ ([] : Table) = [] :=
  ⟨⟨rfl, rfl⟩,
    c9_table_restored_on_success [extendHeadMethod] "c9id" (.obj 9) [] []
      (.list [.str "a"]) [] rfl rfl⟩

/-- C10: the dispatcher inserts the host as an extra first positional
argument (`method(self, *args)`), and for a decorated method the
decorator's `__call__` prepends the decorator instance, so the underlying
function receives `(decorator, host, a1..an)` — two more arguments than
the caller supplied; when the function declares only `self` plus the
caller's arguments (the documented zero-argument examples have
`arity = args.length + 1`), the call therefore raises `TypeError`. -/
theorem c10_dispatcher_argument_threading (m : Method) (host : PyVal)
    (args : List PyVal) :
    dispatchArgs host args = host :: args
      ∧ receivedArgs m host args = m.self_ :: host :: args
      ∧ (receivedArgs m host args).length = args.length + 2
      ∧ (m.arity = args.length + 1 →
          callMethod m host args = .error .typeError) := by
  refine ⟨rfl, rfl, by simp [receivedArgs, dispatchArgs], ?_⟩
  intro h
  rw [callMethod, if_neg]
  simp only [receivedArgs, dispatchArgs, List.length_cons, h]
  omega

/-- C10 witness: component `A`'s one-parameter `items` method, invoked by
the dispatcher with no caller arguments, receives two positional arguments
and raises `TypeError`. -/
theorem c10_dispatcher_argument_threading_witness :
    aItems.arity = List.length ([] : List PyVal) + 1
      ∧ callMethod aItems (.obj 99) [] = .error .typeError :=
  ⟨rfl, (c10_dispatcher_argument_threading aItems (.obj 99) []).2.2.2 rfl⟩

end XComposite
